import Mathlib

/-!
Shallow embedding of `src/molecular_analyzer.py` (molecular-complex-analysis).

An atomic structure (ASE `Atoms`) is a list of element symbols paired with a
list of 3D positions.  Machine floats are modelled as exact rationals; the
external library behaviours the script calls into (the ASE reader, Python's
`float()`, `np.pi`, `np.sqrt`, `np.random.normal` draws, the atomic-mass and
atomic-number tables, and the FairChem calculator / BFGS optimizer) are
modelled as explicit parameters bundled in an environment `Env`.
-/

namespace MolecularAnalyzer

/-- 3D position / displacement vector (exact-rational model of a float triple). -/
abbrev Vec3 := ℚ × ℚ × ℚ

/-- ASE `Atoms`: a list of element symbols and a list of 3D positions.
No invariant is baked in; the equal-length invariant is a claim to check. -/
structure Atoms where
  symbols : List String
  positions : List Vec3
deriving DecidableEq, Repr

/-- The data-model invariant from the spec: symbols and positions have equal length. -/
def Atoms.wf (a : Atoms) : Prop := a.symbols.length = a.positions.length

/-- Python `len(atoms)` (ASE returns the length of the positions array). -/
def Atoms.natoms (a : Atoms) : ℕ := a.positions.length

/-- ASE `atoms.translate(v)`: add the displacement to every position. -/
def translate (a : Atoms) (v : Vec3) : Atoms :=
  { symbols := a.symbols, positions := a.positions.map (fun p => p + v) }

/-- ASE `absorbent + analyte`: concatenate the symbol and position arrays. -/
def addAtoms (a b : Atoms) : Atoms :=
  { symbols := a.symbols ++ b.symbols, positions := a.positions ++ b.positions }

/-- Total mass of a structure: ASE sums the per-atom masses (a table keyed on
the element symbol, modelled by the `mass` parameter). -/
def totalMass (mass : String → ℚ) (a : Atoms) : ℚ :=
  (a.symbols.map mass).sum

/-- Mass-weighted sum of the positions. -/
def weightedPosSum (mass : String → ℚ) (a : Atoms) : Vec3 :=
  ((a.symbols.zip a.positions).map (fun sp => mass sp.1 • sp.2)).sum

/-- ASE `atoms.get_center_of_mass()`: mass-weighted average of the positions. -/
def centerOfMass (mass : String → ℚ) (a : Atoms) : Vec3 :=
  (totalMass mass a)⁻¹ • weightedPosSum mass a

/-- Sampled values of the `np.random.normal` draws made while estimating
properties (one scalar for the HOMO-LUMO noise, one charge per atom index for
the mock partial charges, one scalar for the binding-energy noise). -/
structure Rng where
  homoLumo : ℚ
  charges : ℕ → ℚ
  binding : ℚ

/-- Behaviour of the FairChem calculator / BFGS optimizer, as seen by the
script: running an optimization on a structure either returns the final
structure or raises (carrying the partially mutated copy); asking for the
potential energy or the forces either returns a value or raises. -/
structure CalcB where
  runOpt : Atoms → ℚ → ℕ → Except (String × Atoms) Atoms
  energy : Atoms → Except String ℚ
  forces : Atoms → Except String (List Vec3)

/-- Environment of external behaviours: the atomic-mass and atomic-number
tables, `np.pi`, `np.sqrt` on rationals, the random draws, the (possibly
unavailable) FairChem calculator, and Python's `float()` parser. -/
structure Env where
  mass : String → ℚ
  atomicNumber : String → ℕ
  pi : ℚ
  sqrtQ : ℚ → ℚ
  rng : Rng
  fairchem_calc : Option CalcB
  floatOf : String → Option ℚ

/-- The van der Waals radius table of `_calculate_molecular_volume`:
`{'H': 1.2, 'C': 1.7, 'N': 1.55, 'O': 1.52, 'S': 1.8, 'P': 1.8}` with
`dict.get(symbol, 1.5)` as default. -/
def vdwRadius (symbol : String) : ℚ :=
  if symbol = "H" then 1.2
  else if symbol = "C" then 1.7
  else if symbol = "N" then 1.55
  else if symbol = "O" then 1.52
  else if symbol = "S" then 1.8
  else if symbol = "P" then 1.8
  else 1.5

/-- `_calculate_molecular_volume`: loop over the chemical symbols adding
`(4/3) * np.pi * radius**3` to a running total. -/
def _calculate_molecular_volume (env : Env) (atoms : Atoms) : ℚ :=
  atoms.symbols.foldl (fun total symbol => total + (4/3) * env.pi * (vdwRadius symbol)^3) 0

/-- `_estimate_homo_lumo_gap`: heuristic on the total electron count
(sum of atomic numbers), plus a sampled normal noise term. -/
def _estimate_homo_lumo_gap (env : Env) (atoms : Atoms) : ℚ :=
  let n_electrons := (atoms.symbols.map env.atomicNumber).sum
  if n_electrons < 10 then 8 + env.rng.homoLumo
  else if n_electrons < 50 then 4 + env.rng.homoLumo
  else 2 + env.rng.homoLumo

/-- `_calculate_dipole_moment`: mock random charges, one per atom, dotted with
the positions; the result is the Euclidean norm of the summed vector
(`np.linalg.norm`, i.e. the square root of the sum of squares). -/
def _calculate_dipole_moment (env : Env) (atoms : Atoms) : ℚ :=
  let charges := (List.range atoms.natoms).map env.rng.charges
  let dipole := ((charges.zip atoms.positions).map (fun cp => cp.1 • cp.2)).sum
  env.sqrtQ (dipole.1^2 + dipole.2.1^2 + dipole.2.2^2)

/-- `_estimate_polarizability`: `0.1 * volume`. -/
def _estimate_polarizability (env : Env) (atoms : Atoms) : ℚ :=
  0.1 * _calculate_molecular_volume env atoms

/-- `_estimate_binding_energy`: `-5.0 - 0.1 * n_atoms` plus sampled noise. -/
def _estimate_binding_energy (env : Env) (atoms : Atoms) : ℚ :=
  -5 - 0.1 * (atoms.natoms : ℚ) + env.rng.binding

/-- A binding site record: atom index, element symbol and position. -/
structure Site where
  atom_index : ℕ
  element : String
  position : Vec3
deriving DecidableEq, Repr

/-- `_identify_binding_sites`: enumerate `zip(positions, symbols)` and keep
the heteroatoms O, N, S. -/
def _identify_binding_sites (atoms : Atoms) : List Site :=
  ((atoms.positions.zip atoms.symbols).enum).filterMap (fun ips =>
    if ips.2.2 = "O" ∨ ips.2.2 = "N" ∨ ips.2.2 = "S" then
      some { atom_index := ips.1, element := ips.2.2, position := ips.2.1 }
    else none)

/-- `_estimate_ir_frequencies`: fixed frequency table keyed on element
presence, returned sorted (Python `sorted`, i.e. ascending). -/
def _estimate_ir_frequencies (atoms : Atoms) : List ℕ :=
  List.insertionSort (· ≤ ·)
    ((if "O" ∈ atoms.symbols ∧ "H" ∈ atoms.symbols then [3200, 3400] else []) ++
     (if "C" ∈ atoms.symbols ∧ "O" ∈ atoms.symbols then [1700] else []) ++
     (if "C" ∈ atoms.symbols ∧ "H" ∈ atoms.symbols then [2900, 3000] else []))

/-- `_estimate_uv_vis`: `min(200 + 30 * sqrt(n), 800)` where `n` counts the
atoms whose symbol is C, N or O. -/
def _estimate_uv_vis (env : Env) (atoms : Atoms) : ℚ :=
  let n_pi_electrons := atoms.symbols.countP (fun sym => sym == "C" || sym == "N" || sym == "O")
  min (200 + 30 * env.sqrtQ (n_pi_electrons : ℚ)) 800

/-- Python `str.strip()` on a character list: drop leading and trailing
whitespace. -/
def stripChars (cs : List Char) : List Char :=
  ((cs.dropWhile Char.isWhitespace).reverse.dropWhile Char.isWhitespace).reverse

/-- Python `str.strip()`. -/
def pyStrip (s : String) : String :=
  String.mk (stripChars s.toList)

/-- Python `str.startswith(c)` for a single-character argument. -/
def pyStartsWith (s : String) (c : Char) : Bool :=
  match s.toList with
  | [] => false
  | d :: _ => d = c

/-- Python `any(p(char) for char in s)`. -/
def pyAnyChar (s : String) (p : Char → Bool) : Bool :=
  s.toList.any p

/-- Worker for Python `str.split()`: accumulate the current (reversed) field,
emitting it at each whitespace run; empty fields are discarded. -/
def splitWsGo : List Char → List Char → List String
  | [], acc => if acc = [] then [] else [String.mk acc.reverse]
  | c :: rest, acc =>
    if c.isWhitespace then
      if acc = [] then splitWsGo rest []
      else String.mk acc.reverse :: splitWsGo rest []
    else splitWsGo rest (c :: acc)

/-- Python `str.split()` with no argument: split on whitespace runs,
discarding empty fields. -/
def pySplit (s : String) : List String :=
  splitWsGo s.toList []

/-- Parser state of `_manual_gjf_parse`: the `symbols` and `positions`
accumulators and the `coord_section` flag. -/
structure ParseState where
  symbols : List String
  positions : List Vec3
  coord_section : Bool
deriving DecidableEq, Repr

/-- The `try: symbols.append(...); positions.append([...]) except: continue`
block of `_manual_gjf_parse` on a line with at least 4 fields.  Python appends
the symbol first; only then does it build the float list, so on a float-parse
failure the symbol stays appended while the positions are untouched. -/
def tryAppendCoord (floatOf : String → Option ℚ) (st : ParseState)
    (parts : List String) : ParseState :=
  match parts with
  | p0 :: p1 :: p2 :: p3 :: _ =>
    let symbols := st.symbols ++ [p0]
    match floatOf p1, floatOf p2, floatOf p3 with
    | some x, some y, some z =>
      { st with symbols := symbols, positions := st.positions ++ [(x, y, z)] }
    | _, _, _ => { st with symbols := symbols }
  | _ => st

/-- One iteration of the line loop in `_manual_gjf_parse`. -/
def parseLineStep (floatOf : String → Option ℚ) (st : ParseState)
    (line : String) : ParseState :=
  let l := pyStrip line
  if l = "" ∨ pyStartsWith l '#' ∨ pyStartsWith l '%' then st
  else if st.coord_section then
    let parts := pySplit l
    if 4 ≤ parts.length then tryAppendCoord floatOf st parts else st
  else
    if pyAnyChar l Char.isDigit ∧ pyAnyChar l Char.isAlpha then
      let st := { st with coord_section := true }
      let parts := pySplit l
      if 4 ≤ parts.length then tryAppendCoord floatOf st parts else st
    else st

/-- The full line scan of `_manual_gjf_parse`, starting from empty
accumulators with `coord_section = False`. -/
def manualScan (floatOf : String → Option ℚ) (lines : List String) : ParseState :=
  lines.foldl (parseLineStep floatOf) { symbols := [], positions := [], coord_section := false }

/-- The ASE `Atoms(symbols=..., positions=...)` constructor: `new_array`
validates the array lengths and raises `ValueError` when the positions array
does not match the number of atoms, so a constructed object always has
equally long symbol and position arrays. -/
def mkAtoms (symbols : List String) (positions : List Vec3) : Except String Atoms :=
  if symbols.length = positions.length then
    Except.ok { symbols := symbols, positions := positions }
  else
    Except.error "Array positions has wrong length"

/-- `_manual_gjf_parse`: run the line scan; if both accumulators are nonempty
return `Atoms(symbols=symbols, positions=positions)` (whose constructor
itself raises on mismatched lengths), otherwise raise `ValueError`. -/
def _manual_gjf_parse (floatOf : String → Option ℚ) (lines : List String) :
    Except String Atoms :=
  let st := manualScan floatOf lines
  if st.symbols ≠ [] ∧ st.positions ≠ [] then
    mkAtoms st.symbols st.positions
  else
    Except.error "Could not parse coordinates from .gjf file"

/-- `parse_gjf_file`: delegate to the external ASE reader (whose outcome on
this file is the `ext` parameter); on any exception fall back to the manual
parser on the file's lines. -/
def parse_gjf_file (ext : Except String Atoms) (floatOf : String → Option ℚ)
    (lines : List String) : Except String Atoms :=
  match ext with
  | Except.ok atoms => Except.ok atoms
  | Except.error _ => _manual_gjf_parse floatOf lines

/-- `optimize_structure` at the level of structure values: if the calculator
is unavailable return the input; otherwise run BFGS on a copy, returning the
optimized copy, or the original input if the run raises. -/
def optimize_structure (env : Env) (atoms : Atoms) (fmax : ℚ) (steps : ℕ) : Atoms :=
  match env.fairchem_calc with
  | none => atoms
  | some c =>
    let atoms_copy := atoms
    match c.runOpt atoms_copy fmax steps with
    | Except.ok optimized => optimized
    | Except.error _ => atoms

/-- `create_complex`: translate a copy of the analyte by
`(0, 0, separation_distance) + com(absorbent) - com(analyte)` and concatenate. -/
def create_complex (mass : String → ℚ) (absorbent analyte : Atoms)
    (separation_distance : ℚ) : Atoms :=
  let abs_com := centerOfMass mass absorbent
  let ana_com := centerOfMass mass analyte
  let analyte_copy := analyte
  let displacement := (((0 : ℚ), (0 : ℚ), separation_distance) : Vec3) + abs_com - ana_com
  let analyte_copy := translate analyte_copy displacement
  addAtoms absorbent analyte_copy

/-- `optimize_complex`: forwards to `optimize_structure`. -/
def optimize_complex (env : Env) (complex_atoms : Atoms) (fmax : ℚ) (steps : ℕ) : Atoms :=
  optimize_structure env complex_atoms fmax steps

/-- A value stored in the properties dictionary. -/
inductive PropValue where
  | count (n : ℕ)
  | num (q : ℚ)
  | vec3 (v : Vec3)
  | freqs (l : List ℕ)
  | siteList (l : List Site)
  | msg (s : String)
deriving DecidableEq, Repr

/-- A properties-dictionary entry (key, value); insertion order preserved. -/
abbrev Entry := String × PropValue

/-- `np.mean(forces**2)` over an (N,3) array: the mean of the squares of all
3N components. -/
def meanSquares (forces : List Vec3) : ℚ :=
  ((forces.map (fun v => v.1^2 + v.2.1^2 + v.2.2^2)).sum) / (3 * forces.length)

/-- The first three (purely geometric) entries of `calculate_properties`. -/
def geomEntries (env : Env) (atoms : Atoms) : List Entry :=
  [("total_atoms", PropValue.count atoms.natoms),
   ("molecular_volume", PropValue.num (_calculate_molecular_volume env atoms)),
   ("center_of_mass", PropValue.vec3 (centerOfMass env.mass atoms))]

/-- The entries computed after the calculator block of `calculate_properties`
(electronic, binding and spectroscopic estimates; none of them can raise). -/
def restEntries (env : Env) (atoms : Atoms) : List Entry :=
  [("homo_lumo_gap", PropValue.num (_estimate_homo_lumo_gap env atoms)),
   ("dipole_moment", PropValue.num (_calculate_dipole_moment env atoms)),
   ("polarizability", PropValue.num (_estimate_polarizability env atoms)),
   ("binding_energy", PropValue.num (_estimate_binding_energy env atoms)),
   ("binding_sites", PropValue.siteList (_identify_binding_sites atoms)),
   ("ir_frequencies", PropValue.freqs (_estimate_ir_frequencies atoms)),
   ("uv_vis_absorption", PropValue.num (_estimate_uv_vis env atoms))]

/-- The `try` block of `calculate_properties`: build the entries in program
order; a raise from the calculator aborts with the entries accumulated so far
and the exception message. -/
def propsAttempt (env : Env) (atoms : Atoms) :
    Except (List Entry × String) (List Entry) :=
  let p := geomEntries env atoms
  match env.fairchem_calc with
  | none => Except.ok (p ++ restEntries env atoms)
  | some c =>
    match c.energy atoms with
    | Except.error e => Except.error (p, e)
    | Except.ok en =>
      let p := p ++ [("total_energy", PropValue.num en)]
      match c.forces atoms with
      | Except.error e => Except.error (p, e)
      | Except.ok fs =>
        let p := p ++ [("forces_rms", PropValue.num (env.sqrtQ (meanSquares fs)))]
        Except.ok (p ++ restEntries env atoms)

/-- `calculate_properties`: the `try` block with its blanket
`except Exception as e: properties['error'] = str(e)` handler; always returns
the dictionary. -/
def calculate_properties (env : Env) (complex_atoms : Atoms) : List Entry :=
  match propsAttempt env complex_atoms with
  | Except.ok entries => entries
  | Except.error pe => pe.1 ++ [("error", PropValue.msg pe.2)]

/-- The content `save_gjf_file` writes: the fixed header fields and the
coordinate block. -/
structure GjfOut where
  nprocshared : ℕ
  memLine : String
  route : String
  title : String
  charge : ℤ
  multiplicity : ℕ
  coords : List (String × Vec3)
deriving DecidableEq, Repr

/-- `save_gjf_file`: write the header and one line per atom. -/
def save_gjf_file (atoms : Atoms) (title method basis : String)
    (charge : ℤ) (multiplicity : ℕ) : GjfOut :=
  { nprocshared := 4
    memLine := "2GB"
    route := "# " ++ method ++ "/" ++ basis ++ " opt freq"
    title := title
    charge := charge
    multiplicity := multiplicity
    coords := atoms.symbols.zip atoms.positions }

/-- The six pipeline steps of `analyze_complex`. -/
inductive Step where
  | parse
  | optimizeIndividual
  | combine
  | optimizeComplex
  | estimateProperties
  | writeOutput
deriving DecidableEq, Repr

/-- Result of a successful `analyze_complex` run, instrumented with the trace
of pipeline steps in execution order. -/
structure AnalysisResult where
  final_complex : Atoms
  properties : List Entry
  outputName : String
  output : GjfOut
  trace : List Step
deriving DecidableEq, Repr

/-- `analyze_complex`: parse both files, optimize each structure, combine,
optimize the complex, estimate properties, write the output.  A parse failure
propagates; every other step is total. -/
def analyze_complex (env : Env)
    (extAbs : Except String Atoms) (linesAbs : List String)
    (extAna : Except String Atoms) (linesAna : List String)
    (outputStem : String) : Except String AnalysisResult :=
  match parse_gjf_file extAbs env.floatOf linesAbs with
  | Except.error e => Except.error e
  | Except.ok absorbent =>
    match parse_gjf_file extAna env.floatOf linesAna with
    | Except.error e => Except.error e
    | Except.ok analyte =>
      let t1 : List Step := [Step.parse]
      let opt_absorbent := optimize_structure env absorbent 0.05 200
      let opt_analyte := optimize_structure env analyte 0.05 200
      let t2 := t1 ++ [Step.optimizeIndividual]
      let initial_complex := create_complex env.mass opt_absorbent opt_analyte 3
      let t3 := t2 ++ [Step.combine]
      let final_complex := optimize_complex env initial_complex 0.05 300
      let t4 := t3 ++ [Step.optimizeComplex]
      let properties := calculate_properties env final_complex
      let t5 := t4 ++ [Step.estimateProperties]
      let output := save_gjf_file final_complex "Optimized Absorbent-Analyte Complex"
        "B3LYP" "6-31G(d)" 0 1
      let t6 := t5 ++ [Step.writeOutput]
      Except.ok
        { final_complex := final_complex
          properties := properties
          outputName := outputStem ++ "_optimized.gjf"
          output := output
          trace := t6 }

/-- Heap of `Atoms` objects, for the claims about in-place mutation: Python
object references are natural numbers; `next` is the first unused reference. -/
structure Heap where
  mem : ℕ → Atoms
  next : ℕ

/-- Dereference. -/
def Heap.read (h : Heap) (r : ℕ) : Atoms := h.mem r

/-- In-place update of the object at `r`. -/
def Heap.write (h : Heap) (r : ℕ) (a : Atoms) : Heap :=
  { mem := fun i => if i = r then a else h.mem i, next := h.next }

/-- Allocate a fresh object holding `a`. -/
def Heap.alloc (h : Heap) (a : Atoms) : ℕ × Heap :=
  (h.next, { mem := fun i => if i = h.next then a else h.mem i, next := h.next + 1 })

/-- `create_complex` on the heap: read both centers of mass, allocate
`analyte.copy()`, translate the copy in place, allocate the concatenation. -/
def create_complexRef (mass : String → ℚ) (h : Heap) (absR anaR : ℕ)
    (separation_distance : ℚ) : ℕ × Heap :=
  let abs_com := centerOfMass mass (h.read absR)
  let ana_com := centerOfMass mass (h.read anaR)
  let copyAlloc := h.alloc (h.read anaR)
  let copyR := copyAlloc.1
  let h1 := copyAlloc.2
  let displacement := (((0 : ℚ), (0 : ℚ), separation_distance) : Vec3) + abs_com - ana_com
  let h2 := h1.write copyR (translate (h1.read copyR) displacement)
  let cAlloc := h2.alloc (addAtoms (h2.read absR) (h2.read copyR))
  cAlloc

/-- `optimize_structure` on the heap: with no calculator, return the input
reference with the heap untouched; otherwise allocate a copy and run BFGS on
it (mutating the copy in place), returning the copy on success and the
original reference on an exception. -/
def optimize_structureRef (env : Env) (h : Heap) (r : ℕ) (fmax : ℚ) (steps : ℕ) :
    ℕ × Heap :=
  match env.fairchem_calc with
  | none => (r, h)
  | some c =>
    let copyAlloc := h.alloc (h.read r)
    let copyR := copyAlloc.1
    let h1 := copyAlloc.2
    match c.runOpt (h1.read copyR) fmax steps with
    | Except.ok optimized => (copyR, h1.write copyR optimized)
    | Except.error ea => (r, h1.write copyR ea.2)

/-- The displacement `create_complex` applies to the analyte copy:
`(0, 0, separation_distance) + com(absorbent) - com(analyte)`. -/
def complexDisplacement (mass : String → ℚ) (absorbent analyte : Atoms)
    (separation_distance : ℚ) : Vec3 :=
  (((0 : ℚ), (0 : ℚ), separation_distance) : Vec3) +
    centerOfMass mass absorbent - centerOfMass mass analyte

/-! ### Helper lemmas -/

/-- Summing a pointwise sum of two vector-valued maps splits. -/
theorem sum_map_addVec {α : Type} (f g : α → Vec3) (l : List α) :
    (l.map (fun x => f x + g x)).sum = (l.map f).sum + (l.map g).sum := by
  induction l with
  | nil => simp
  | cons x xs ih =>
    simp only [List.map_cons, List.sum_cons, ih]
    abel

/-- Summing scalar multiples of a fixed vector factors out the vector. -/
theorem sum_map_smulConst {α : Type} (c : α → ℚ) (v : Vec3) (l : List α) :
    (l.map (fun x => c x • v)).sum = (l.map c).sum • v := by
  induction l with
  | nil => simp
  | cons x xs ih => simp [ih, add_smul]

/-- A left fold that only adds `f` of each element is the sum of the mapped list. -/
theorem foldl_add_eq_sum (f : String → ℚ) :
    ∀ (l : List String) (init : ℚ),
      l.foldl (fun total s => total + f s) init = init + (l.map f).sum := by
  intro l
  induction l with
  | nil => simp
  | cons x xs ih =>
    intro init
    simp only [List.foldl_cons, List.map_cons, List.sum_cons, ih (init + f x)]
    ring

/-- Translating a structure translates its center of mass. -/
theorem centerOfMass_translate (mass : String → ℚ) (a : Atoms) (v : Vec3)
    (hwf : a.wf) (hM : totalMass mass a ≠ 0) :
    centerOfMass mass (translate a v) = centerOfMass mass a + v := by
  have hlen : a.symbols.length ≤ a.positions.length := le_of_eq hwf
  have hzip : (translate a v).symbols.zip (translate a v).positions =
      (a.symbols.zip a.positions).map (Prod.map id (fun p => p + v)) := by
    simp [translate, List.zip_map_right]
  have hnum : weightedPosSum mass (translate a v) =
      weightedPosSum mass a + (totalMass mass a) • v := by
    unfold weightedPosSum
    rw [hzip, List.map_map]
    have hcong : ((a.symbols.zip a.positions).map
        ((fun sp => mass sp.1 • sp.2) ∘ Prod.map id (fun p => p + v))) =
        ((a.symbols.zip a.positions).map
          (fun sp => mass sp.1 • sp.2 + mass sp.1 • v)) := by
      apply List.map_congr_left
      intro sp _
      simp [Prod.map, smul_add]
    rw [hcong,
      sum_map_addVec (fun (sp : String × Vec3) => mass sp.1 • sp.2)
        (fun (sp : String × Vec3) => mass sp.1 • v),
      sum_map_smulConst (fun (sp : String × Vec3) => mass sp.1) v]
    have hfst : ((a.symbols.zip a.positions).map (fun sp => mass sp.1)).sum =
        totalMass mass a := by
      have : (a.symbols.zip a.positions).map (fun sp => mass sp.1) =
          ((a.symbols.zip a.positions).map Prod.fst).map mass := by
        simp [List.map_map]
      rw [this, List.map_fst_zip a.symbols a.positions hlen]
      rfl
    rw [hfst]
  unfold centerOfMass
  have hmass : totalMass mass (translate a v) = totalMass mass a := rfl
  rw [hmass, hnum, smul_add, smul_smul, inv_mul_cancel₀ hM, one_smul]

/-! ### Concrete sample inputs used by witnesses and counterexamples -/

/-- A concrete model of Python `float()` for the tokens of `badLines`. -/
def badFloatOf : String → Option ℚ := fun s =>
  if s = "0.5" then some (1/2)
  else if s = "1.5" then some (3/2)
  else if s = "0.0" then some 0
  else none

/-- Sample environment: no FairChem calculator, all random draws zero. -/
def sampleEnv : Env :=
  { mass := fun _ => 1
    atomicNumber := fun _ => 6
    pi := 3.14
    sqrtQ := fun _ => 0
    rng := { homoLumo := 0, charges := fun _ => 0, binding := 0 }
    fairchem_calc := none
    floatOf := badFloatOf }

/-- Sample water-like structure. -/
def sampleWater : Atoms :=
  { symbols := ["O", "H", "H"], positions := [(0, 0, 0), (1, 0, 0), (0, 1, 0)] }

/-- Sample one-carbon structure. -/
def sampleCarbon : Atoms :=
  { symbols := ["C"], positions := [(0, 0, 0)] }

/-- Sample heap holding the carbon at reference 0 and the water at reference 1. -/
def sampleHeap : Heap :=
  { mem := fun i => if i = 0 then sampleCarbon else if i = 1 then sampleWater else
      { symbols := [], positions := [] }
    next := 2 }

/-! ### Claims -/

/-- C1: every structure `_manual_gjf_parse` returns satisfies the
equal-length invariant, for every input file — including files with
malformed coordinate lines: although the scan can leave the accumulators out
of step (the symbol is appended before the float conversions are attempted),
every return path goes through the ASE `Atoms` constructor, which rejects
mismatched arrays, so a returned structure always has
`len(symbols) == len(positions)`. -/
theorem manual_parse_invariant (floatOf : String → Option ℚ) (lines : List String)
    (a : Atoms) (h : _manual_gjf_parse floatOf lines = Except.ok a) :
    a.wf := by
  unfold _manual_gjf_parse at h
  by_cases hcond : (manualScan floatOf lines).symbols ≠ [] ∧
      (manualScan floatOf lines).positions ≠ []
  · rw [if_pos hcond] at h
    unfold mkAtoms at h
    by_cases hlen : (manualScan floatOf lines).symbols.length =
        (manualScan floatOf lines).positions.length
    · rw [if_pos hlen] at h
      injection h with ha
      rw [← ha]
      exact hlen
    · rw [if_neg hlen] at h
      exact Except.noConfusion h
  · rw [if_neg hcond] at h
    exact Except.noConfusion h

/-- Witness for C1: a concrete file that parses successfully, whose returned
structure satisfies the invariant. -/
theorem manual_parse_invariant_witness :
    (_manual_gjf_parse badFloatOf ["C 0.0 0.0 0.0"]).toOption =
      some { symbols := ["C"], positions := [((0 : ℚ), (0 : ℚ), (0 : ℚ))] } ∧
    Atoms.wf { symbols := ["C"], positions := [((0 : ℚ), (0 : ℚ), (0 : ℚ))] } :=
  ⟨by decide, manual_parse_invariant badFloatOf ["C 0.0 0.0 0.0"]
    { symbols := ["C"], positions := [((0 : ℚ), (0 : ℚ), (0 : ℚ))] } (by rfl)⟩

/-- C4: the molecular volume is the sum over the atoms of
`(4/3) * pi * r^3` with `r` the tabulated van der Waals radius (default 1.5),
so it depends only on the multiset of element symbols. -/
theorem molecular_volume_spec (env : Env) (a b : Atoms)
    (hperm : a.symbols.Perm b.symbols) :
    _calculate_molecular_volume env a =
      (a.symbols.map (fun s => (4/3) * env.pi * (vdwRadius s)^3)).sum ∧
    _calculate_molecular_volume env a = _calculate_molecular_volume env b ∧
    vdwRadius "H" = 1.2 ∧ vdwRadius "C" = 1.7 ∧ vdwRadius "N" = 1.55 ∧
    vdwRadius "O" = 1.52 ∧ vdwRadius "S" = 1.8 ∧ vdwRadius "P" = 1.8 ∧
    (∀ s : String, s ≠ "H" → s ≠ "C" → s ≠ "N" → s ≠ "O" → s ≠ "S" → s ≠ "P" →
      vdwRadius s = 1.5) := by
  have key : ∀ (x : Atoms), _calculate_molecular_volume env x =
      (x.symbols.map (fun s => (4/3) * env.pi * (vdwRadius s)^3)).sum := by
    intro x
    unfold _calculate_molecular_volume
    have h := foldl_add_eq_sum (fun s => (4/3) * env.pi * (vdwRadius s)^3) x.symbols 0
    simpa using h
  refine ⟨key a, ?_, rfl, rfl, rfl, rfl, rfl, rfl, ?_⟩
  · rw [key a, key b]
    exact List.Perm.sum_eq (hperm.map _)
  · intro s h1 h2 h3 h4 h5 h6
    simp [vdwRadius, h1, h2, h3, h4, h5, h6]

/-- Witness for C4 at a concrete permutation of symbols. -/
theorem molecular_volume_spec_witness :
    _calculate_molecular_volume sampleEnv { symbols := ["H", "C"], positions := [] } =
      ((["H", "C"] : List String).map
        (fun s => (4/3) * sampleEnv.pi * (vdwRadius s)^3)).sum ∧
    _calculate_molecular_volume sampleEnv { symbols := ["H", "C"], positions := [] } =
      _calculate_molecular_volume sampleEnv { symbols := ["C", "H"], positions := [] } := by
  have h := molecular_volume_spec sampleEnv
    { symbols := ["H", "C"], positions := [] }
    { symbols := ["C", "H"], positions := [] } (by decide)
  exact ⟨h.1, h.2.1⟩

/-- C10: the UV-Vis estimate is `min(200 + 30 * sqrt(n), 800)` with `n` the
count of C/N/O atoms, and (given that the square-root model is nonnegative on
nonnegative inputs) always lies in `[200, 800]`. -/
theorem uv_vis_range (env : Env) (a : Atoms)
    (hs : ∀ q : ℚ, 0 ≤ q → 0 ≤ env.sqrtQ q) :
    200 ≤ _estimate_uv_vis env a ∧ _estimate_uv_vis env a ≤ 800 ∧
    _estimate_uv_vis env a =
      min (200 + 30 * env.sqrtQ
        ((a.symbols.countP (fun sym => sym == "C" || sym == "N" || sym == "O") : ℕ) : ℚ)) 800 := by
  have hnn : (0 : ℚ) ≤ env.sqrtQ
      ((a.symbols.countP (fun sym => sym == "C" || sym == "N" || sym == "O") : ℕ) : ℚ) :=
    hs _ (by positivity)
  unfold _estimate_uv_vis
  refine ⟨le_min (by linarith) (by norm_num), min_le_right _ _, rfl⟩

/-- Witness for C10 on a concrete structure and square-root model. -/
theorem uv_vis_range_witness :
    200 ≤ _estimate_uv_vis sampleEnv sampleWater ∧
    _estimate_uv_vis sampleEnv sampleWater ≤ 800 ∧
    _estimate_uv_vis sampleEnv sampleWater =
      min (200 + 30 * sampleEnv.sqrtQ
        ((sampleWater.symbols.countP
          (fun sym => sym == "C" || sym == "N" || sym == "O") : ℕ) : ℚ)) 800 :=
  uv_vis_range sampleEnv sampleWater (fun _ _ => le_refl 0)

/-- C5: the IR frequency list is sorted, contains 3200/3400 iff O and H are
both present, 1700 iff C and O are both present, 2900/3000 iff C and H are
both present, nothing else, and depends only on the set of element symbols. -/
theorem ir_frequencies_spec (a b : Atoms)
    (hset : ∀ s : String, s ∈ a.symbols ↔ s ∈ b.symbols) :
    List.Sorted (· ≤ ·) (_estimate_ir_frequencies a) ∧
    ((3200 : ℕ) ∈ _estimate_ir_frequencies a ↔ "O" ∈ a.symbols ∧ "H" ∈ a.symbols) ∧
    ((3400 : ℕ) ∈ _estimate_ir_frequencies a ↔ "O" ∈ a.symbols ∧ "H" ∈ a.symbols) ∧
    ((1700 : ℕ) ∈ _estimate_ir_frequencies a ↔ "C" ∈ a.symbols ∧ "O" ∈ a.symbols) ∧
    ((2900 : ℕ) ∈ _estimate_ir_frequencies a ↔ "C" ∈ a.symbols ∧ "H" ∈ a.symbols) ∧
    ((3000 : ℕ) ∈ _estimate_ir_frequencies a ↔ "C" ∈ a.symbols ∧ "H" ∈ a.symbols) ∧
    (∀ x ∈ _estimate_ir_frequencies a,
      x = 1700 ∨ x = 2900 ∨ x = 3000 ∨ x = 3200 ∨ x = 3400) ∧
    _estimate_ir_frequencies a = _estimate_ir_frequencies b := by
  have hab : _estimate_ir_frequencies a = _estimate_ir_frequencies b := by
    unfold _estimate_ir_frequencies
    simp only [hset]
  by_cases o : "O" ∈ a.symbols <;> by_cases hh : "H" ∈ a.symbols <;>
    by_cases hc : "C" ∈ a.symbols
  · have ea : _estimate_ir_frequencies a = [1700, 2900, 3000, 3200, 3400] := by
      unfold _estimate_ir_frequencies
      rw [if_pos ⟨o, hh⟩, if_pos ⟨hc, o⟩, if_pos ⟨hc, hh⟩]
      decide
    rw [ea] at hab ⊢
    exact ⟨by decide, iff_of_true (by decide) ⟨o, hh⟩, iff_of_true (by decide) ⟨o, hh⟩,
      iff_of_true (by decide) ⟨hc, o⟩, iff_of_true (by decide) ⟨hc, hh⟩,
      iff_of_true (by decide) ⟨hc, hh⟩, by decide, hab⟩
  · have ea : _estimate_ir_frequencies a = [3200, 3400] := by
      unfold _estimate_ir_frequencies
      rw [if_pos ⟨o, hh⟩, if_neg (fun hx => hc hx.1), if_neg (fun hx => hc hx.1)]
      decide
    rw [ea] at hab ⊢
    exact ⟨by decide, iff_of_true (by decide) ⟨o, hh⟩, iff_of_true (by decide) ⟨o, hh⟩,
      iff_of_false (by decide) (fun hx => hc hx.1),
      iff_of_false (by decide) (fun hx => hc hx.1),
      iff_of_false (by decide) (fun hx => hc hx.1), by decide, hab⟩
  · have ea : _estimate_ir_frequencies a = [1700] := by
      unfold _estimate_ir_frequencies
      rw [if_neg (fun hx => hh hx.2), if_pos ⟨hc, o⟩, if_neg (fun hx => hh hx.2)]
      decide
    rw [ea] at hab ⊢
    exact ⟨by decide, iff_of_false (by decide) (fun hx => hh hx.2),
      iff_of_false (by decide) (fun hx => hh hx.2), iff_of_true (by decide) ⟨hc, o⟩,
      iff_of_false (by decide) (fun hx => hh hx.2),
      iff_of_false (by decide) (fun hx => hh hx.2), by decide, hab⟩
  · have ea : _estimate_ir_frequencies a = [] := by
      unfold _estimate_ir_frequencies
      rw [if_neg (fun hx => hh hx.2), if_neg (fun hx => hc hx.1),
        if_neg (fun hx => hc hx.1)]
      decide
    rw [ea] at hab ⊢
    exact ⟨by decide, iff_of_false (by decide) (fun hx => hh hx.2),
      iff_of_false (by decide) (fun hx => hh hx.2),
      iff_of_false (by decide) (fun hx => hc hx.1),
      iff_of_false (by decide) (fun hx => hc hx.1),
      iff_of_false (by decide) (fun hx => hc hx.1), by decide, hab⟩
  · have ea : _estimate_ir_frequencies a = [2900, 3000] := by
      unfold _estimate_ir_frequencies
      rw [if_neg (fun hx => o hx.1), if_neg (fun hx => o hx.2), if_pos ⟨hc, hh⟩]
      decide
    rw [ea] at hab ⊢
    exact ⟨by decide, iff_of_false (by decide) (fun hx => o hx.1),
      iff_of_false (by decide) (fun hx => o hx.1),
      iff_of_false (by decide) (fun hx => o hx.2), iff_of_true (by decide) ⟨hc, hh⟩,
      iff_of_true (by decide) ⟨hc, hh⟩, by decide, hab⟩
  · have ea : _estimate_ir_frequencies a = [] := by
      unfold _estimate_ir_frequencies
      rw [if_neg (fun hx => o hx.1), if_neg (fun hx => hc hx.1),
        if_neg (fun hx => hc hx.1)]
      decide
    rw [ea] at hab ⊢
    exact ⟨by decide, iff_of_false (by decide) (fun hx => o hx.1),
      iff_of_false (by decide) (fun hx => o hx.1),
      iff_of_false (by decide) (fun hx => hc hx.1),
      iff_of_false (by decide) (fun hx => hc hx.1),
      iff_of_false (by decide) (fun hx => hc hx.1), by decide, hab⟩
  · have ea : _estimate_ir_frequencies a = [] := by
      unfold _estimate_ir_frequencies
      rw [if_neg (fun hx => o hx.1), if_neg (fun hx => o hx.2),
        if_neg (fun hx => hh hx.2)]
      decide
    rw [ea] at hab ⊢
    exact ⟨by decide, iff_of_false (by decide) (fun hx => o hx.1),
      iff_of_false (by decide) (fun hx => o hx.1),
      iff_of_false (by decide) (fun hx => o hx.2),
      iff_of_false (by decide) (fun hx => hh hx.2),
      iff_of_false (by decide) (fun hx => hh hx.2), by decide, hab⟩
  · have ea : _estimate_ir_frequencies a = [] := by
      unfold _estimate_ir_frequencies
      rw [if_neg (fun hx => o hx.1), if_neg (fun hx => o hx.2),
        if_neg (fun hx => hh hx.2)]
      decide
    rw [ea] at hab ⊢
    exact ⟨by decide, iff_of_false (by decide) (fun hx => o hx.1),
      iff_of_false (by decide) (fun hx => o hx.1),
      iff_of_false (by decide) (fun hx => o hx.2),
      iff_of_false (by decide) (fun hx => hh hx.2),
      iff_of_false (by decide) (fun hx => hh hx.2), by decide, hab⟩

/-- Witness for C5 on two different structures with the same symbol set. -/
theorem ir_frequencies_spec_witness :
    List.Sorted (· ≤ ·) (_estimate_ir_frequencies sampleWater) ∧
    ((3200 : ℕ) ∈ _estimate_ir_frequencies sampleWater ↔
      "O" ∈ sampleWater.symbols ∧ "H" ∈ sampleWater.symbols) ∧
    ((3400 : ℕ) ∈ _estimate_ir_frequencies sampleWater ↔
      "O" ∈ sampleWater.symbols ∧ "H" ∈ sampleWater.symbols) ∧
    ((1700 : ℕ) ∈ _estimate_ir_frequencies sampleWater ↔
      "C" ∈ sampleWater.symbols ∧ "O" ∈ sampleWater.symbols) ∧
    ((2900 : ℕ) ∈ _estimate_ir_frequencies sampleWater ↔
      "C" ∈ sampleWater.symbols ∧ "H" ∈ sampleWater.symbols) ∧
    ((3000 : ℕ) ∈ _estimate_ir_frequencies sampleWater ↔
      "C" ∈ sampleWater.symbols ∧ "H" ∈ sampleWater.symbols) ∧
    (∀ x ∈ _estimate_ir_frequencies sampleWater,
      x = 1700 ∨ x = 2900 ∨ x = 3000 ∨ x = 3200 ∨ x = 3400) ∧
    _estimate_ir_frequencies sampleWater =
      _estimate_ir_frequencies { symbols := ["H", "O"], positions := [] } :=
  ir_frequencies_spec sampleWater { symbols := ["H", "O"], positions := [] }
    (by
      intro s
      simp only [sampleWater, List.mem_cons, List.not_mem_nil, or_false]
      tauto)

/-- C6: `calculate_properties` always returns a dictionary, whatever the
calculator does; when the energy or force call raises, the exception is
caught and the result is every entry computed before the failure followed by
an `error` entry holding the exception message; an `error` entry appears only
when some computation actually raised. -/
theorem calculate_properties_error_handling (env : Env) (a : Atoms) :
    calculate_properties env a =
      (match env.fairchem_calc with
       | none => geomEntries env a ++ restEntries env a
       | some c =>
         match c.energy a with
         | Except.error e => geomEntries env a ++ [("error", PropValue.msg e)]
         | Except.ok en =>
           match c.forces a with
           | Except.error e =>
             geomEntries env a ++ [("total_energy", PropValue.num en)] ++
               [("error", PropValue.msg e)]
           | Except.ok fs =>
             geomEntries env a ++ [("total_energy", PropValue.num en)] ++
               [("forces_rms", PropValue.num (env.sqrtQ (meanSquares fs)))] ++
               restEntries env a) ∧
    ((∃ v, ("error", v) ∈ calculate_properties env a) ↔
      ∃ c, env.fairchem_calc = some c ∧
        ((∃ e, c.energy a = Except.error e) ∨
         (∃ en e, c.energy a = Except.ok en ∧ c.forces a = Except.error e))) := by
  cases hcalc : env.fairchem_calc with
  | none =>
    constructor
    · simp only [calculate_properties, propsAttempt, hcalc]
    · constructor
      · rintro ⟨v, hv⟩
        exfalso
        simp only [calculate_properties, propsAttempt, hcalc] at hv
        have hkeys := List.mem_map_of_mem Prod.fst hv
        simp only [geomEntries, restEntries, List.map_append, List.map_cons,
          List.map_nil, List.cons_append, List.nil_append] at hkeys
        exact absurd hkeys (by decide)
      · rintro ⟨c, hc, _⟩
        exact Option.noConfusion hc
  | some c =>
    cases hen : c.energy a with
    | error e =>
      constructor
      · simp only [calculate_properties, propsAttempt, hcalc, hen]
      · constructor
        · intro _
          exact ⟨c, rfl, Or.inl ⟨e, hen⟩⟩
        · intro _
          refine ⟨PropValue.msg e, ?_⟩
          simp only [calculate_properties, propsAttempt, hcalc, hen]
          simp
    | ok en =>
      cases hfs : c.forces a with
      | error e =>
        constructor
        · simp only [calculate_properties, propsAttempt, hcalc, hen, hfs]
        · constructor
          · intro _
            exact ⟨c, rfl, Or.inr ⟨en, e, hen, hfs⟩⟩
          · intro _
            refine ⟨PropValue.msg e, ?_⟩
            simp only [calculate_properties, propsAttempt, hcalc, hen, hfs]
            simp
      | ok fs =>
        constructor
        · simp only [calculate_properties, propsAttempt, hcalc, hen, hfs]
        · constructor
          · rintro ⟨v, hv⟩
            exfalso
            simp only [calculate_properties, propsAttempt, hcalc, hen, hfs] at hv
            have hkeys := List.mem_map_of_mem Prod.fst hv
            simp only [geomEntries, restEntries, List.map_append, List.map_cons,
              List.map_nil, List.cons_append, List.nil_append] at hkeys
            exact absurd hkeys (by decide)
          · rintro ⟨c', hc', hrest⟩
            injection hc' with hcc
            subst hcc
            rcases hrest with ⟨e, he⟩ | ⟨en', e, he, hf⟩
            · rw [hen] at he
              exact Except.noConfusion he
            · rw [hfs] at hf
              exact Except.noConfusion hf

/-- C2: `create_complex` concatenates the absorbent with the analyte
translated by `(0,0,d) + com(absorbent) - com(analyte)`: the result has
`len(A) + len(B)` atoms, its first `len(A)` atoms are exactly `A`, its last
`len(B)` atoms are `B` translated by that fixed offset, and the translated
analyte's center of mass sits exactly `d` above the absorbent's center of
mass along z. -/
theorem create_complex_spec (mass : String → ℚ) (A B : Atoms) (d : ℚ)
    (hwfB : B.wf) (hMB : totalMass mass B ≠ 0) :
    (create_complex mass A B d).symbols.length = A.symbols.length + B.symbols.length ∧
    (create_complex mass A B d).positions.length = A.positions.length + B.positions.length ∧
    (create_complex mass A B d).symbols.take A.symbols.length = A.symbols ∧
    (create_complex mass A B d).symbols.drop A.symbols.length = B.symbols ∧
    (create_complex mass A B d).positions.take A.positions.length = A.positions ∧
    (create_complex mass A B d).positions.drop A.positions.length =
      B.positions.map (fun p => p + complexDisplacement mass A B d) ∧
    centerOfMass mass (translate B (complexDisplacement mass A B d)) =
      centerOfMass mass A + (((0 : ℚ), (0 : ℚ), d) : Vec3) := by
  have hcc : create_complex mass A B d =
      addAtoms A (translate B (complexDisplacement mass A B d)) := rfl
  rw [hcc]
  refine ⟨?_, ?_, ?_, ?_, ?_, ?_, ?_⟩
  · simp [addAtoms, translate]
  · simp [addAtoms, translate]
  · exact List.take_left A.symbols (translate B (complexDisplacement mass A B d)).symbols
  · simp [addAtoms, translate]
  · exact List.take_left A.positions (translate B (complexDisplacement mass A B d)).positions
  · simp [addAtoms, translate]
  · rw [centerOfMass_translate mass B (complexDisplacement mass A B d) hwfB hMB]
    unfold complexDisplacement
    abel

/-- Witness for C2 on a one-atom absorbent and one-atom analyte. -/
theorem create_complex_spec_witness :
    (create_complex (fun _ => 1) sampleCarbon sampleWater 3).symbols.length =
      sampleCarbon.symbols.length + sampleWater.symbols.length ∧
    (create_complex (fun _ => 1) sampleCarbon sampleWater 3).positions.length =
      sampleCarbon.positions.length + sampleWater.positions.length ∧
    (create_complex (fun _ => 1) sampleCarbon sampleWater 3).symbols.take
      sampleCarbon.symbols.length = sampleCarbon.symbols ∧
    (create_complex (fun _ => 1) sampleCarbon sampleWater 3).symbols.drop
      sampleCarbon.symbols.length = sampleWater.symbols ∧
    (create_complex (fun _ => 1) sampleCarbon sampleWater 3).positions.take
      sampleCarbon.positions.length = sampleCarbon.positions ∧
    (create_complex (fun _ => 1) sampleCarbon sampleWater 3).positions.drop
      sampleCarbon.positions.length =
      sampleWater.positions.map
        (fun p => p + complexDisplacement (fun _ => 1) sampleCarbon sampleWater 3) ∧
    centerOfMass (fun _ => 1)
        (translate sampleWater (complexDisplacement (fun _ => 1) sampleCarbon sampleWater 3)) =
      centerOfMass (fun _ => 1) sampleCarbon + (((0 : ℚ), (0 : ℚ), 3) : Vec3) :=
  create_complex_spec (fun _ => 1) sampleCarbon sampleWater 3 rfl
    (by norm_num [totalMass, sampleWater])

/-- C3: when both input files parse, `analyze_complex` performs exactly the
six pipeline steps in order — parse, optimize-individual, combine,
optimize-complex, estimate-properties, write-output — and each step consumes
the previous step's output: the final complex is the complex-optimization of
the combination of the two individually optimized parses, the properties are
computed from that final complex, and the written file contains it. -/
theorem analyze_complex_pipeline (env : Env)
    (extAbs : Except String Atoms) (linesAbs : List String)
    (extAna : Except String Atoms) (linesAna : List String)
    (stem : String) (A B : Atoms)
    (hA : parse_gjf_file extAbs env.floatOf linesAbs = Except.ok A)
    (hB : parse_gjf_file extAna env.floatOf linesAna = Except.ok B) :
    analyze_complex env extAbs linesAbs extAna linesAna stem = Except.ok
      { final_complex :=
          optimize_complex env
            (create_complex env.mass (optimize_structure env A 0.05 200)
              (optimize_structure env B 0.05 200) 3) 0.05 300
        properties :=
          calculate_properties env
            (optimize_complex env
              (create_complex env.mass (optimize_structure env A 0.05 200)
                (optimize_structure env B 0.05 200) 3) 0.05 300)
        outputName := stem ++ "_optimized.gjf"
        output :=
          save_gjf_file
            (optimize_complex env
              (create_complex env.mass (optimize_structure env A 0.05 200)
                (optimize_structure env B 0.05 200) 3) 0.05 300)
            "Optimized Absorbent-Analyte Complex" "B3LYP" "6-31G(d)" 0 1
        trace := [Step.parse, Step.optimizeIndividual, Step.combine,
          Step.optimizeComplex, Step.estimateProperties, Step.writeOutput] } := by
  unfold analyze_complex
  rw [hA, hB]
  rfl

/-- Witness for C3 on concrete inputs whose parses succeed. -/
theorem analyze_complex_pipeline_witness :
    analyze_complex sampleEnv (Except.ok sampleCarbon) [] (Except.ok sampleWater) []
      "complex" = Except.ok
      { final_complex :=
          optimize_complex sampleEnv
            (create_complex sampleEnv.mass
              (optimize_structure sampleEnv sampleCarbon 0.05 200)
              (optimize_structure sampleEnv sampleWater 0.05 200) 3) 0.05 300
        properties :=
          calculate_properties sampleEnv
            (optimize_complex sampleEnv
              (create_complex sampleEnv.mass
                (optimize_structure sampleEnv sampleCarbon 0.05 200)
                (optimize_structure sampleEnv sampleWater 0.05 200) 3) 0.05 300)
        outputName := "complex" ++ "_optimized.gjf"
        output :=
          save_gjf_file
            (optimize_complex sampleEnv
              (create_complex sampleEnv.mass
                (optimize_structure sampleEnv sampleCarbon 0.05 200)
                (optimize_structure sampleEnv sampleWater 0.05 200) 3) 0.05 300)
            "Optimized Absorbent-Analyte Complex" "B3LYP" "6-31G(d)" 0 1
        trace := [Step.parse, Step.optimizeIndividual, Step.combine,
          Step.optimizeComplex, Step.estimateProperties, Step.writeOutput] } :=
  analyze_complex_pipeline sampleEnv (Except.ok sampleCarbon) [] (Except.ok sampleWater) []
    "complex" sampleCarbon sampleWater rfl rfl

/-- C8: `create_complex` mutates neither input object: after the call the
absorbent and analyte objects hold exactly their old values, the returned
complex is a freshly allocated object, and its value is the value-level
`create_complex` of the inputs (the analyte is copied before translation). -/
theorem create_complex_no_mutation (mass : String → ℚ) (h : Heap) (absR anaR : ℕ)
    (d : ℚ) (hA : absR < h.next) (hB : anaR < h.next) :
    (create_complexRef mass h absR anaR d).2.read absR = h.read absR ∧
    (create_complexRef mass h absR anaR d).2.read anaR = h.read anaR ∧
    h.next ≤ (create_complexRef mass h absR anaR d).1 ∧
    (create_complexRef mass h absR anaR d).2.read (create_complexRef mass h absR anaR d).1 =
      create_complex mass (h.read absR) (h.read anaR) d := by
  have h1 : absR ≠ h.next := Nat.ne_of_lt hA
  have h2 : anaR ≠ h.next := Nat.ne_of_lt hB
  have h3 : absR ≠ h.next + 1 := by omega
  have h4 : anaR ≠ h.next + 1 := by omega
  unfold create_complexRef Heap.alloc Heap.write Heap.read
  refine ⟨?_, ?_, ?_, ?_⟩
  · simp [h1, h3]
  · simp [h2, h4]
  · simp
  · simp [h1, h2, h3, h4]
    rfl

/-- Witness for C8 on a concrete two-object heap. -/
theorem create_complex_no_mutation_witness :
    (create_complexRef (fun _ => 1) sampleHeap 0 1 3).2.read 0 = sampleHeap.read 0 ∧
    (create_complexRef (fun _ => 1) sampleHeap 0 1 3).2.read 1 = sampleHeap.read 1 ∧
    sampleHeap.next ≤ (create_complexRef (fun _ => 1) sampleHeap 0 1 3).1 ∧
    (create_complexRef (fun _ => 1) sampleHeap 0 1 3).2.read
        (create_complexRef (fun _ => 1) sampleHeap 0 1 3).1 =
      create_complex (fun _ => 1) (sampleHeap.read 0) (sampleHeap.read 1) 3 :=
  create_complex_no_mutation (fun _ => 1) sampleHeap 0 1 3 (by decide) (by decide)

/-- C9: `optimize_structure` never mutates the caller's object: the input
reference's value is unchanged in every case; with no calculator it returns
the input reference and the untouched heap; when the optimization run raises
it returns the original reference; on success it returns the freshly
allocated copy holding the optimizer's result. -/
theorem optimize_structure_atomicity (env : Env) (h : Heap) (r : ℕ)
    (fmax : ℚ) (steps : ℕ) (hr : r < h.next) :
    (optimize_structureRef env h r fmax steps).2.read r = h.read r ∧
    (env.fairchem_calc = none → optimize_structureRef env h r fmax steps = (r, h)) ∧
    (∀ c, env.fairchem_calc = some c →
      (∀ ea, c.runOpt (h.read r) fmax steps = Except.error ea →
        (optimize_structureRef env h r fmax steps).1 = r) ∧
      (∀ b, c.runOpt (h.read r) fmax steps = Except.ok b →
        (optimize_structureRef env h r fmax steps).1 = h.next ∧
        (optimize_structureRef env h r fmax steps).2.read h.next = b)) := by
  have h1 : r ≠ h.next := Nat.ne_of_lt hr
  cases hcalc : env.fairchem_calc with
  | none =>
    refine ⟨?_, fun _ => ?_, ?_⟩
    · simp [optimize_structureRef, hcalc]
    · simp [optimize_structureRef, hcalc]
    · intro c hc
      exact Option.noConfusion hc
  | some c =>
    have hread : ∀ (x : Atoms), (h.alloc x).2.read (h.alloc x).1 = x := by
      intro x
      simp [Heap.alloc, Heap.read]
    cases hrun : c.runOpt (h.read r) fmax steps with
    | ok b =>
      have heq : optimize_structureRef env h r fmax steps =
          ((h.alloc (h.read r)).1,
            (h.alloc (h.read r)).2.write (h.alloc (h.read r)).1 b) := by
        unfold optimize_structureRef
        rw [hcalc]
        simp only [hread, hrun]
      refine ⟨?_, ?_, ?_⟩
      · rw [heq]
        simp [Heap.alloc, Heap.write, Heap.read, h1]
      · intro hnone
        exact Option.noConfusion hnone
      · intro c' hc'
        injection hc' with hcc
        subst hcc
        refine ⟨?_, ?_⟩
        · intro ea hea
          rw [hrun] at hea
          exact Except.noConfusion hea
        · intro b' hb'
          rw [hrun] at hb'
          injection hb' with hbb
          subst hbb
          rw [heq]
          constructor
          · simp [Heap.alloc]
          · simp [Heap.alloc, Heap.write, Heap.read]
    | error ea =>
      have heq : optimize_structureRef env h r fmax steps =
          (r, (h.alloc (h.read r)).2.write (h.alloc (h.read r)).1 ea.2) := by
        unfold optimize_structureRef
        rw [hcalc]
        simp only [hread, hrun]
      refine ⟨?_, ?_, ?_⟩
      · rw [heq]
        simp [Heap.alloc, Heap.write, Heap.read, h1]
      · intro hnone
        exact Option.noConfusion hnone
      · intro c' hc'
        injection hc' with hcc
        subst hcc
        refine ⟨?_, ?_⟩
        · intro ea' hea'
          rw [heq]
        · intro b' hb'
          rw [hrun] at hb'
          exact Except.noConfusion hb'

/-- Witness for C9: with no calculator available the input object is untouched. -/
theorem optimize_structure_atomicity_witness :
    (optimize_structureRef sampleEnv sampleHeap 0 0.05 200).2.read 0 =
      sampleHeap.read 0 :=
  (optimize_structure_atomicity sampleEnv sampleHeap 0 0.05 200 (by decide)).1

end MolecularAnalyzer
